import Mathlib

/-!
# Verification of the Load-Logic routing core

Shallow embedding of the clustering / routing / scheduling
code and proofs about it.

* `LoadLogic.DeliveryRouter` embeds `app/services/delivery_router.py`
  (K-means clustering, cluster rebalancing, nearest-neighbor sequencing).
* `LoadLogic.Planner` embeds `app/services/planner.py`
  (single-vehicle OR-Tools solve with optional lunch break).
* `LoadLogic.MultiPlanner` embeds `app/services/multi_planner.py`
  (multi-vehicle OR-Tools solve).

External collaborators are kept abstract:
* the great-circle distance `_haversine_km` (float trigonometry) is an
  explicit function parameter `dist`;
* the scikit-learn K-means labelling is an explicit parameter `labels`;
* the OR-Tools routing engine is abstracted as an optional solution value
  together with a validity predicate stating exactly the constraints the
  source installs on the routing model (node structure, cumulative time
  dimension, time windows).

Python runtime errors (UnboundLocalError, ValueError on empty max/min,
KeyError) are modelled with `Except String`.
-/

namespace LoadLogic

/-- Coordinate pair (lat, lon).  The source carries floats; we use `ℚ`. -/
abbrev Coord := ℚ × ℚ

/-- A delivery stop as consumed by `DeliveryRouter` in
`app/services/delivery_router.py`: a dict with keys `lat`, `lon`,
optional `gallons` (default 0 via `s.get("gallons", 0)`) and an
identifier.  `id` stands for the optional `id`/`address` payload and
lets us distinguish stops. -/
structure RStop where
  id : Nat
  lat : ℚ
  lon : ℚ
  gallons : ℚ
deriving DecidableEq

instance : Inhabited RStop := ⟨⟨0, 0, 0, 0⟩⟩

/-- Python `max(range(n), key=f)`: the first index in `0..n-1` attaining
the maximal key (Python `max` keeps the earliest maximum while scanning
left to right).  Total function; the source raises `ValueError` for
`n = 0`, which callers below guard explicitly. -/
def pyMaxIdx (f : Nat → ℚ) (n : Nat) : Nat :=
  (List.range n).foldl (fun best i => if f best < f i then i else best) 0

/-- Python `min(range(n), key=f)`: first index attaining the minimal key. -/
def pyMinIdx (f : Nat → ℚ) (n : Nat) : Nat :=
  (List.range n).foldl (fun best i => if f i < f best then i else best) 0

/-- Python `min(xs, key=f)` over a list, `none` on the empty list
(where Python raises `ValueError`).  Keeps the first minimum. -/
def pyMinBy {α : Type} {β : Type} [LinearOrder β] (f : α → β) : List α → Option α
  | [] => none
  | x :: xs => some (xs.foldl (fun b y => if f y < f b then y else b) x)

theorem pyMaxIdx_lt (f : Nat → ℚ) (n : Nat) (hn : 0 < n) : pyMaxIdx f n < n := by
  have key : ∀ (l : List Nat) (b : Nat),
      l.foldl (fun best i => if f best < f i then i else best) b = b ∨
      l.foldl (fun best i => if f best < f i then i else best) b ∈ l := by
    intro l
    induction l with
    | nil => intro b; exact Or.inl rfl
    | cons x xs ih =>
      intro b
      simp only [List.foldl_cons]
      rcases ih (if f b < f x then x else b) with h | h
      · by_cases hc : f b < f x
        · right; rw [h, if_pos hc]; exact List.mem_cons_self _ _
        · left; rw [h, if_neg hc]
      · right; exact List.mem_cons_of_mem _ h
  rcases key (List.range n) 0 with h | h
  · rw [pyMaxIdx, h]; exact hn
  · exact List.mem_range.mp h

theorem pyMaxIdx_le (f : Nat → ℚ) (n : Nat) (i : Nat) (hi : i < n) :
    f i ≤ f (pyMaxIdx f n) := by
  have key : ∀ (l : List Nat) (b : Nat),
      f b ≤ f (l.foldl (fun best j => if f best < f j then j else best) b) ∧
      ∀ j ∈ l, f j ≤ f (l.foldl (fun best j => if f best < f j then j else best) b) := by
    intro l
    induction l with
    | nil => intro b; exact ⟨le_refl _, by intro j hj; cases hj⟩
    | cons x xs ih =>
      intro b
      simp only [List.foldl_cons]
      constructor
      · by_cases hc : f b < f x
        · rw [if_pos hc]; exact le_of_lt (lt_of_lt_of_le hc (ih x).1)
        · rw [if_neg hc]; exact (ih b).1
      · intro j hj
        rcases List.mem_cons.mp hj with rfl | hj
        · by_cases hc : f b < f j
          · rw [if_pos hc]; exact (ih j).1
          · rw [if_neg hc]; exact le_trans (le_of_not_lt hc) (ih b).1
        · by_cases hc : f b < f x
          · rw [if_pos hc]; exact (ih x).2 j hj
          · rw [if_neg hc]; exact (ih b).2 j hj
  exact (key (List.range n) 0).2 i (List.mem_range.mpr hi)

theorem pyMinIdx_lt (f : Nat → ℚ) (n : Nat) (hn : 0 < n) : pyMinIdx f n < n := by
  have key : ∀ (l : List Nat) (b : Nat),
      l.foldl (fun best i => if f i < f best then i else best) b = b ∨
      l.foldl (fun best i => if f i < f best then i else best) b ∈ l := by
    intro l
    induction l with
    | nil => intro b; exact Or.inl rfl
    | cons x xs ih =>
      intro b
      simp only [List.foldl_cons]
      rcases ih (if f x < f b then x else b) with h | h
      · by_cases hc : f x < f b
        · right; rw [h, if_pos hc]; exact List.mem_cons_self _ _
        · left; rw [h, if_neg hc]
      · right; exact List.mem_cons_of_mem _ h
  rcases key (List.range n) 0 with h | h
  · rw [pyMinIdx, h]; exact hn
  · exact List.mem_range.mp h

theorem pyMinBy_mem {α β : Type} [LinearOrder β] (f : α → β) (l : List α) (x : α)
    (h : pyMinBy f l = some x) : x ∈ l := by
  match l with
  | [] => cases h
  | y :: ys =>
    have key : ∀ (l' : List α) (b : α),
        l'.foldl (fun b z => if f z < f b then z else b) b = b ∨
        l'.foldl (fun b z => if f z < f b then z else b) b ∈ l' := by
      intro l'
      induction l' with
      | nil => intro b; exact Or.inl rfl
      | cons z zs ih =>
        intro b
        simp only [List.foldl_cons]
        rcases ih (if f z < f b then z else b) with h' | h'
        · by_cases hc : f z < f b
          · right; rw [h', if_pos hc]; exact List.mem_cons_self _ _
          · left; rw [h', if_neg hc]
        · right; exact List.mem_cons_of_mem _ h'
    simp only [pyMinBy, Option.some.injEq] at h
    rcases key ys y with h' | h'
    · rw [← h, h']; exact List.mem_cons_self _ _
    · rw [← h]; exact List.mem_cons_of_mem _ h'

/-- `i < l.length → l ~ l[i] :: l.eraseIdx i`. -/
theorem perm_getD_cons_eraseIdx {α : Type} [Inhabited α] :
    ∀ (l : List α) (i : Nat), i < l.length →
      l.Perm (l.getD i default :: l.eraseIdx i)
  | [], i, h => by cases h
  | a :: l, 0, _ => by simp [List.getD]
  | a :: l, i + 1, h => by
    have ih := perm_getD_cons_eraseIdx l i (by simpa using Nat.lt_of_succ_lt_succ h)
    have : (a :: l).getD (i + 1) default = l.getD i default := by
      simp [List.getD_cons_succ]
    rw [this]
    simpa [List.eraseIdx] using (ih.cons a).trans (List.Perm.swap _ _ _)

namespace DeliveryRouter

/-- `DeliveryRouter._get_cluster_gallons`: `sum(s.get("gallons", 0) for s in stops)`. -/
def getClusterGallons (stops : List RStop) : ℚ :=
  (stops.map (·.gallons)).sum

/-- `DeliveryRouter._centroid`: mean coordinate, the depot for an empty list. -/
def centroid (depot : Coord) (stops : List RStop) : Coord :=
  if stops.isEmpty then depot
  else ((stops.map (·.lat)).sum / stops.length, (stops.map (·.lon)).sum / stops.length)

/-- The overload test of `_balance_clusters`:
`len(v) > self.max_stops_per_truck or total_gallons > self.truck_capacity`. -/
def overloadedb (maxStops : Nat) (cap : ℚ) (c : List RStop) : Bool :=
  decide (maxStops < c.length) || decide (cap < getClusterGallons c)

/-- The indices of overloaded clusters, in dict iteration order.  The
dict is built as `\x7bi: [] for i in range(k)\x7d` and its key set never
changes, so iteration order is `0, 1, ..., k-1`; we represent the
mapping as a `List` indexed by cluster id. -/
def overloadedIdxs (maxStops : Nat) (cap : ℚ) (cs : List (List RStop)) : List Nat :=
  (List.range cs.length).filter (fun k => overloadedb maxStops cap (cs.getD k []))

/-- The cluster `_balance_clusters` chooses to unload on an iteration:
`truck_id, stops = overloaded[0]` — the FIRST overloaded cluster in key
order. -/
def selectedTruck (maxStops : Nat) (cap : ℚ) (cs : List (List RStop)) : Option Nat :=
  (overloadedIdxs maxStops cap cs).head?

/-- The index of the stop `_balance_clusters` removes from the selected
cluster: the highest-gallons stop when the cluster is over capacity,
otherwise the stop farthest from the cluster centroid.  Python `max`
keeps the first maximum. -/
def removedIdx (dist : Coord → Coord → ℚ) (depot : Coord) (cap : ℚ)
    (stops : List RStop) : Nat :=
  let ctr := centroid depot stops
  if cap < getClusterGallons stops then
    pyMaxIdx (fun i => (stops.getD i default).gallons) stops.length
  else
    pyMaxIdx (fun i => dist ctr ((stops.getD i default).lat, (stops.getD i default).lon))
      stops.length

/-- One iteration body of the `while` loop in `_balance_clusters`,
assuming `overloaded` is non-empty.  `.error` models the Python
`ValueError` raised by `max()` / `min()` on an empty sequence. -/
def balanceIter (dist : Coord → Coord → ℚ) (depot : Coord) (maxStops : Nat) (cap : ℚ)
    (cs : List (List RStop)) : Except String (List (List RStop)) :=
  match selectedTruck maxStops cap cs with
  | none => .ok cs
  | some truckId =>
    let stops := cs.getD truckId []
    if stops.length = 0 then
      .error "ValueError: max() arg is an empty sequence"
    else
      let fIdx := removedIdx dist depot cap stops
      let stopToMove := stops.getD fIdx default
      let cs1 := cs.set truckId (stops.eraseIdx fIdx)
      let underloaded := (List.range cs1.length).filter (fun k =>
        decide (k ≠ truckId) &&
        decide ((cs1.getD k []).length < maxStops) &&
        decide (getClusterGallons (cs1.getD k []) + stopToMove.gallons ≤ cap))
      let target? :=
        match underloaded with
        | [] =>
          pyMinBy
            (fun k => toLex (getClusterGallons (cs1.getD k []), (cs1.getD k []).length))
            ((List.range cs1.length).filter (fun k => decide (k ≠ truckId)))
        | _ =>
          pyMinBy
            (fun k => dist (centroid depot (cs1.getD k []))
              (stopToMove.lat, stopToMove.lon))
            underloaded
      match target? with
      | none => .error "ValueError: min() arg is an empty sequence"
      | some target => .ok (cs1.set target (cs1.getD target [] ++ [stopToMove]))

/-- The `while iteration < max_iterations` loop of `_balance_clusters`,
with explicit fuel (the source uses 100).  The returned flag is `true`
exactly when the loop exited through the `break` (no cluster overloaded)
rather than by exhausting the iteration bound. -/
def balanceLoop (dist : Coord → Coord → ℚ) (depot : Coord) (maxStops : Nat) (cap : ℚ) :
    Nat → List (List RStop) → Except String (List (List RStop) × Bool)
  | 0, cs => .ok (cs, false)
  | fuel + 1, cs =>
    if overloadedIdxs maxStops cap cs = [] then .ok (cs, true)
    else
      match balanceIter dist depot maxStops cap cs with
      | .error e => .error e
      | .ok cs' => balanceLoop dist depot maxStops cap fuel cs'

/-- `DeliveryRouter._balance_clusters`. -/
def balance_clusters (dist : Coord → Coord → ℚ) (depot : Coord) (maxStops : Nat)
    (cap : ℚ) (cs : List (List RStop)) : Except String (List (List RStop)) :=
  match balanceLoop dist depot maxStops cap 100 cs with
  | .error e => .error e
  | .ok (m, _) => .ok m

/-- `DeliveryRouter.cluster_stops`.  `labels` abstracts
`KMeans(...).fit_predict` (labels of each stop index); the source
raises `KeyError` if a label fell outside `range(k)`, which scikit-learn
never produces.  Each cluster is then sorted by distance from the depot
(`list.sort` is a stable sort; we use `mergeSort`), and the result is
rebalanced. -/
def cluster_stops (dist : Coord → Coord → ℚ) (labels : Nat → Nat) (depot : Coord)
    (numTrucks maxStops : Nat) (cap : ℚ) (stops : List RStop) :
    Except String (List (List RStop)) :=
  if stops.isEmpty then .ok []
  else
    let n := stops.length
    let k := min numTrucks n
    if (List.range n).all (fun i => decide (labels i < k)) then
      let clusters := (List.range k).map (fun c =>
        (stops.enum.filter (fun p => decide (labels p.1 = c))).map (·.2))
      let sorted := clusters.map (fun cl =>
        cl.mergeSort (fun a b =>
          decide (dist depot (a.lat, a.lon) ≤ dist depot (b.lat, b.lon))))
      match balanceLoop dist depot maxStops cap 100 sorted with
      | .error e => .error e
      | .ok (m, _) => .ok m
    else .error "KeyError"

/-- `DeliveryRouter._nearest_neighbor_route`: greedy nearest-neighbor
from the current position, popping the argmin each round. -/
def nearest_neighbor_route (dist : Coord → Coord → ℚ) (curr : Coord)
    (remaining : List RStop) : List RStop :=
  if h : remaining.length = 0 then []
  else
    let i := pyMinIdx
      (fun j => dist curr ((remaining.getD j default).lat, (remaining.getD j default).lon))
      remaining.length
    let s := remaining.getD i default
    s :: nearest_neighbor_route dist (s.lat, s.lon) (remaining.eraseIdx i)
termination_by remaining.length
decreasing_by
  simp only [List.length_eraseIdx]
  split
  · exact Nat.sub_lt (Nat.pos_of_ne_zero h) Nat.one_pos
  · exact absurd (pyMinIdx_lt _ _ (Nat.pos_of_ne_zero h)) (by assumption)

/-- `DeliveryRouter.optimize_route`.  `useGoogleMaps` is the caller
flag, `hasGoogle` is `self._use_google and self._gmaps`, and
`googleOrder` is the `waypoint_order` the Directions API returned
(`none` when the API is unavailable, errored, or returned no order, in
which case the source falls back to nearest neighbor). -/
def optimize_route (dist : Coord → Coord → ℚ) (useGoogleMaps hasGoogle : Bool)
    (googleOrder : Option (List Nat)) (depot : Coord) (stops : List RStop) :
    List RStop :=
  if stops.length ≤ 1 then stops
  else
    match (if useGoogleMaps && hasGoogle && decide (stops.length ≤ 10) then googleOrder
        else none) with
    | some order => order.map (fun i => stops.getD i default)
    | none => nearest_neighbor_route dist depot stops

/-- Replacing the `j`-th cluster changes the flattened multiset by
exactly swapping the old cluster for the new one. -/
theorem flatten_set_ms {α : Type} (cs : List (List α)) (j : Nat) (x : List α)
    (hj : j < cs.length) :
    ((cs.set j x).flatten : Multiset α) + (cs.getD j [] : Multiset α) =
      (cs.flatten : Multiset α) + (x : Multiset α) := by
  induction cs generalizing j with
  | nil => cases hj
  | cons c tl ih =>
    cases j with
    | zero =>
      simp only [List.set_cons_zero, List.flatten_cons, List.getD_cons_zero,
        Multiset.coe_add]
      rw [Multiset.coe_eq_coe]
      refine List.Perm.trans List.perm_append_comm ?_
      refine List.Perm.trans (List.perm_append_comm.append_left c) ?_
      rw [List.append_assoc]
    | succ j =>
      have hj' : j < tl.length := Nat.lt_of_succ_lt_succ (by simpa using hj)
      simp only [List.set_cons_succ, List.flatten_cons, List.getD_cons_succ,
        ← Multiset.coe_add]
      rw [add_assoc, ih j hj', ← add_assoc]

theorem balanceIter_flatten_perm (dist : Coord → Coord → ℚ) (depot : Coord)
    (maxStops : Nat) (cap : ℚ) (cs cs' : List (List RStop))
    (h : balanceIter dist depot maxStops cap cs = .ok cs') :
    cs'.flatten.Perm cs.flatten := by
  simp only [balanceIter] at h
  split at h
  · cases h; exact List.Perm.refl _
  next truckId hsel =>
    have htid : truckId < cs.length := by
      have hmem : truckId ∈ overloadedIdxs maxStops cap cs := by
        rw [selectedTruck] at hsel
        exact List.mem_of_mem_head? (Option.mem_def.mpr hsel)
      exact List.mem_range.mp (List.mem_filter.mp hmem).1
    split at h
    · cases h
    next hlen =>
      set stops := cs.getD truckId [] with hstops
      set fIdx := removedIdx dist depot cap stops with hfIdx
      set stopToMove := stops.getD fIdx default with hsm
      set cs1 := cs.set truckId (stops.eraseIdx fIdx) with hcs1
      have hfi : fIdx < stops.length := by
        rw [hfIdx, removedIdx]
        by_cases hco : cap < getClusterGallons stops
        · rw [if_pos hco]; exact pyMaxIdx_lt _ _ (Nat.pos_of_ne_zero hlen)
        · rw [if_neg hco]; exact pyMaxIdx_lt _ _ (Nat.pos_of_ne_zero hlen)
      have hperm : stops.Perm (stopToMove :: stops.eraseIdx fIdx) :=
        perm_getD_cons_eraseIdx stops fIdx hfi
      -- the target cluster, whichever branch produced it, is a valid index
      obtain ⟨target, htgt, hfin⟩ :
          ∃ target, target < cs1.length ∧
            cs' = cs1.set target (cs1.getD target [] ++ [stopToMove]) := by
        split at h
        · cases h
        next target htq =>
          cases h
          refine ⟨target, ?_, rfl⟩
          split at htq
          · have := pyMinBy_mem _ _ _ htq
            exact List.mem_range.mp (List.mem_filter.mp this).1
          · have := pyMinBy_mem _ _ _ htq
            exact List.mem_range.mp (List.mem_filter.mp this).1
      have h1 := flatten_set_ms cs1 target (cs1.getD target [] ++ [stopToMove]) htgt
      have h2 := flatten_set_ms cs truckId (stops.eraseIdx fIdx) htid
      rw [← hcs1] at h2
      have e1 : ((cs1.getD target [] ++ [stopToMove] : List RStop) : Multiset RStop) =
          ((cs1.getD target [] : List RStop) : Multiset RStop) +
            (([stopToMove] : List RStop) : Multiset RStop) := (Multiset.coe_add _ _).symm
      have hp2 : stops.Perm (stops.eraseIdx fIdx ++ [stopToMove]) := by
        refine hperm.trans ?_
        have hc : ([stopToMove] ++ stops.eraseIdx fIdx).Perm
            (stops.eraseIdx fIdx ++ [stopToMove]) := List.perm_append_comm
        simpa using hc
      have e2 : ((stops : List RStop) : Multiset RStop) =
          ((stops.eraseIdx fIdx : List RStop) : Multiset RStop) +
            (([stopToMove] : List RStop) : Multiset RStop) := by
        rw [Multiset.coe_eq_coe.mpr hp2]
        exact (Multiset.coe_add _ _).symm
      rw [e1] at h1
      rw [e2] at h2
      have k1 : (((cs1.set target (cs1.getD target [] ++ [stopToMove])).flatten :
          List RStop) : Multiset RStop) =
          ((cs1.flatten : List RStop) : Multiset RStop) +
            (([stopToMove] : List RStop) : Multiset RStop) := by
        rw [add_comm ((cs1.getD target [] : List RStop) : Multiset RStop)
          (([stopToMove] : List RStop) : Multiset RStop), ← add_assoc] at h1
        exact add_right_cancel h1
      have k2 : ((cs1.flatten : List RStop) : Multiset RStop) +
          (([stopToMove] : List RStop) : Multiset RStop) =
          ((cs.flatten : List RStop) : Multiset RStop) := by
        rw [add_comm ((stops.eraseIdx fIdx : List RStop) : Multiset RStop)
          (([stopToMove] : List RStop) : Multiset RStop), ← add_assoc] at h2
        exact add_right_cancel h2
      rw [hfin, ← Multiset.coe_eq_coe]
      exact k1.trans k2

theorem balanceLoop_flatten_perm (dist : Coord → Coord → ℚ) (depot : Coord)
    (maxStops : Nat) (cap : ℚ) :
    ∀ (fuel : Nat) (cs cs' : List (List RStop)) (flag : Bool),
      balanceLoop dist depot maxStops cap fuel cs = .ok (cs', flag) →
      cs'.flatten.Perm cs.flatten := by
  intro fuel
  induction fuel with
  | zero => intro cs cs' flag h; cases h; exact List.Perm.refl _
  | succ n ih =>
    intro cs cs' flag h
    rw [balanceLoop] at h
    split at h
    · cases h; exact List.Perm.refl _
    · split at h
      · cases h
      next cs1 hit =>
        exact (ih cs1 cs' flag h).trans
          (balanceIter_flatten_perm dist depot maxStops cap cs cs1 hit)

theorem filter_or_perm {α : Type} (p q : α → Bool)
    (hdisj : ∀ a, ¬(p a = true ∧ q a = true)) :
    ∀ l : List α, (l.filter p ++ l.filter q).Perm (l.filter (fun a => p a || q a)) := by
  intro l
  induction l with
  | nil => exact List.Perm.refl _
  | cons a tl ih =>
    by_cases hp : p a = true
    · by_cases hq : q a = true
      · exact absurd ⟨hp, hq⟩ (hdisj a)
      · simp only [List.filter_cons, hp, hq, if_pos, Bool.false_eq_true, if_false,
          Bool.true_or, if_true, List.cons_append]
        exact ih.cons a
    · by_cases hq : q a = true
      · simp only [List.filter_cons, hp, hq, Bool.false_eq_true, if_false, if_pos,
          Bool.false_or, if_true]
        exact List.perm_middle.trans (ih.cons a)
      · simp only [List.filter_cons, hp, hq, Bool.false_eq_true, if_false, Bool.false_or]
        exact ih

theorem partition_filter_perm {α : Type} (key : α → Nat) (l : List α) :
    ∀ k : Nat,
      (((List.range k).map (fun c => l.filter (fun a => decide (key a = c)))).flatten).Perm
        (l.filter (fun a => decide (key a < k))) := by
  intro k
  induction k with
  | zero =>
    simp only [List.range_zero, List.map_nil, List.flatten_nil]
    rw [List.filter_eq_nil_iff.mpr (by intro a _; simp)]
  | succ k ih =>
    rw [List.range_succ, List.map_append, List.flatten_append]
    simp only [List.map_cons, List.map_nil, List.flatten_cons, List.flatten_nil,
      List.append_nil]
    refine (ih.append (List.Perm.refl _)).trans ?_
    have hd : ∀ a : α, ¬(decide (key a < k) = true ∧ decide (key a = k) = true) := by
      intro a ha
      have h1 := of_decide_eq_true ha.1
      have h2 := of_decide_eq_true ha.2
      omega
    refine (filter_or_perm (fun a => decide (key a < k)) (fun a => decide (key a = k))
      hd l).trans ?_
    have hcong : List.filter (fun a => decide (key a < k) || decide (key a = k)) l =
        List.filter (fun a => decide (key a < k + 1)) l := by
      apply List.filter_congr
      intro a _
      by_cases h1 : key a < k
      · have h2 : key a < k + 1 := by omega
        simp [h1, h2]
      · by_cases h3 : key a = k
        · have h2 : key a < k + 1 := by omega
          simp [h1, h3, h2]
        · have h2 : ¬key a < k + 1 := by omega
          simp [h1, h3, h2]
    rw [hcong]

theorem partition_perm {α : Type} (key : α → Nat) (l : List α) (k : Nat)
    (h : ∀ a ∈ l, key a < k) :
    (((List.range k).map (fun c => l.filter (fun a => decide (key a = c)))).flatten).Perm
      l := by
  have hp := partition_filter_perm key l k
  rwa [List.filter_eq_self.mpr (fun a ha => decide_eq_true (h a ha))] at hp

theorem flatten_map_perm {α : Type} (f : List α → List α) (hf : ∀ x, (f x).Perm x) :
    ∀ L : List (List α), ((L.map f).flatten).Perm L.flatten := by
  intro L
  induction L with
  | nil => exact List.Perm.refl _
  | cons c tl ih =>
    simp only [List.map_cons, List.flatten_cons]
    exact (hf c).append ih

theorem map_getD_range {α : Type} [Inhabited α] :
    ∀ l : List α, (List.range l.length).map (fun i => l.getD i default) = l := by
  intro l
  induction l with
  | nil => simp
  | cons a tl ih =>
    simp only [List.length_cons, List.range_succ_eq_map, List.map_cons, List.map_map,
      Function.comp_def, List.getD_cons_zero, Nat.succ_eq_add_one, List.getD_cons_succ]
    rw [ih]

/-- `head?` of a filtered `range` yields the first index satisfying the
predicate: it is in range, satisfies the predicate, and nothing below it
does. -/
theorem head_filter_range :
    ∀ (n : Nat) (p : Nat → Bool) (t : Nat),
      ((List.range n).filter p).head? = some t →
      t < n ∧ p t = true ∧ ∀ j < t, p j = false := by
  intro n
  induction n with
  | zero => intro p t h; simp at h
  | succ n ih =>
    intro p t h
    rw [List.range_succ_eq_map, List.filter_cons] at h
    by_cases hp0 : p 0 = true
    · rw [if_pos hp0] at h
      simp only [List.head?_cons, Option.some.injEq] at h
      subst h
      exact ⟨Nat.succ_pos n, hp0, by intro j hj; cases hj⟩
    · rw [if_neg hp0] at h
      rw [List.filter_map, List.head?_map] at h
      obtain ⟨t', ht', rfl⟩ := Option.map_eq_some'.mp h
      obtain ⟨h1, h2, h3⟩ := ih (p ∘ Nat.succ) t' ht'
      refine ⟨Nat.succ_lt_succ h1, h2, ?_⟩
      intro j hj
      cases j with
      | zero => exact eq_false_of_ne_true hp0
      | succ j' => exact h3 j' (Nat.lt_of_succ_lt_succ hj)

theorem nearest_neighbor_route_perm (dist : Coord → Coord → ℚ) :
    ∀ (n : Nat) (l : List RStop), l.length ≤ n → ∀ c : Coord,
      (nearest_neighbor_route dist c l).Perm l := by
  intro n
  induction n with
  | zero =>
    intro l hl c
    have h0 : l = [] := List.length_eq_zero.mp (Nat.le_zero.mp hl)
    subst h0
    rw [nearest_neighbor_route]
    simp
  | succ n ih =>
    intro l hl c
    by_cases h0 : l.length = 0
    · have : l = [] := List.length_eq_zero.mp h0
      subst this
      rw [nearest_neighbor_route]
      simp
    · rw [nearest_neighbor_route, dif_neg h0]
      have hi : pyMinIdx
          (fun j => dist c ((l.getD j default).lat, (l.getD j default).lon)) l.length
          < l.length := pyMinIdx_lt _ _ (Nat.pos_of_ne_zero h0)
      have herase : (l.eraseIdx (pyMinIdx
          (fun j => dist c ((l.getD j default).lat, (l.getD j default).lon))
          l.length)).length ≤ n := by
        rw [List.length_eraseIdx, if_pos hi]
        omega
      exact ((ih _ herase _).cons _).trans (perm_getD_cons_eraseIdx l _ hi).symm

theorem balanceLoop_break_eq (dist : Coord → Coord → ℚ) (depot : Coord)
    (maxStops : Nat) (cap : ℚ) (fuel : Nat) (cs : List (List RStop))
    (hov : overloadedIdxs maxStops cap cs = []) (hf : fuel ≠ 0) :
    balanceLoop dist depot maxStops cap fuel cs = .ok (cs, true) := by
  cases fuel with
  | zero => exact absurd rfl hf
  | succ n => rw [balanceLoop, if_pos hov]

theorem balanceLoop_break_bounds (dist : Coord → Coord → ℚ) (depot : Coord)
    (maxStops : Nat) (cap : ℚ) :
    ∀ (fuel : Nat) (cs cs' : List (List RStop)),
      balanceLoop dist depot maxStops cap fuel cs = .ok (cs', true) →
      ∀ c ∈ cs', c.length ≤ maxStops ∧ getClusterGallons c ≤ cap := by
  intro fuel
  induction fuel with
  | zero =>
    intro cs cs' h
    rw [balanceLoop] at h
    simp at h
  | succ n ih =>
    intro cs cs' h
    rw [balanceLoop] at h
    split at h
    next hov =>
      cases h
      intro c hc
      obtain ⟨j, hj, hcj⟩ := List.getElem_of_mem hc
      have hnot : ¬overloadedb maxStops cap (cs.getD j []) = true := by
        rw [overloadedIdxs] at hov
        exact List.filter_eq_nil_iff.mp hov j (List.mem_range.mpr hj)
      rw [List.getD_eq_getElem?_getD, List.getElem?_eq_getElem hj] at hnot
      simp only [Option.getD_some, hcj] at hnot
      rw [overloadedb] at hnot
      simp only [Bool.or_eq_true, decide_eq_true_eq, not_or] at hnot
      exact ⟨le_of_not_lt hnot.1, le_of_not_lt hnot.2⟩
    · split at h
      · cases h
      next cs1 hit => exact ih cs1 cs' h

/-- C3: when the rebalancing loop of `_balance_clusters` exits through
its `break` (no cluster overloaded) before exhausting the 100-iteration
bound, every cluster in the returned mapping has at most
`max_stops_per_truck` stops and total gallons at most `truck_capacity`. -/
theorem balanced_clusters_within_limits (dist : Coord → Coord → ℚ) (depot : Coord)
    (maxStops : Nat) (cap : ℚ) (cs cs' : List (List RStop))
    (h : balanceLoop dist depot maxStops cap 100 cs = .ok (cs', true)) :
    ∀ c ∈ cs', c.length ≤ maxStops ∧ getClusterGallons c ≤ cap :=
  balanceLoop_break_bounds dist depot maxStops cap 100 cs cs' h

/-- Witness for C3 on a concrete two-cluster instance. -/
theorem balanced_clusters_within_limits_witness :
    balanceLoop (fun _ _ => 0) ((0 : ℚ), (0 : ℚ)) 7 2000 100
        [[(⟨0, 0, 0, 5⟩ : RStop)], [⟨1, 2, 3, 7⟩]] =
      .ok ([[(⟨0, 0, 0, 5⟩ : RStop)], [⟨1, 2, 3, 7⟩]], true) ∧
    ∀ c ∈ [[(⟨0, 0, 0, 5⟩ : RStop)], [⟨1, 2, 3, 7⟩]],
      c.length ≤ 7 ∧ getClusterGallons c ≤ 2000 := by
  have hov : overloadedIdxs 7 2000 [[(⟨0, 0, 0, 5⟩ : RStop)], [⟨1, 2, 3, 7⟩]] = [] := by
    norm_num [overloadedIdxs, overloadedb, getClusterGallons]
    intro a ha
    interval_cases a <;> norm_num
  have hrun := balanceLoop_break_eq (fun _ _ => 0) ((0 : ℚ), (0 : ℚ)) 7 2000 100
    [[(⟨0, 0, 0, 5⟩ : RStop)], [⟨1, 2, 3, 7⟩]] hov (by decide)
  exact ⟨hrun,
    balanced_clusters_within_limits (fun _ _ => 0) ((0 : ℚ), (0 : ℚ)) 7 2000
      [[(⟨0, 0, 0, 5⟩ : RStop)], [⟨1, 2, 3, 7⟩]]
      [[(⟨0, 0, 0, 5⟩ : RStop)], [⟨1, 2, 3, 7⟩]] hrun⟩

/-- C2: whenever `cluster_stops` returns a mapping, the multiset union
of the returned clusters equals the input stop list — no stop is
duplicated or lost, through K-means partition, per-cluster sorting,
and the rebalancing loop (including its soft-overflow insertion). -/
theorem cluster_stops_preserves_multiset (dist : Coord → Coord → ℚ)
    (labels : Nat → Nat) (depot : Coord) (numTrucks maxStops : Nat) (cap : ℚ)
    (stops : List RStop) (m : List (List RStop))
    (h : cluster_stops dist labels depot numTrucks maxStops cap stops = .ok m) :
    m.flatten.Perm stops := by
  simp only [cluster_stops] at h
  split at h
  next hemp =>
    cases h
    rw [List.isEmpty_iff.mp hemp]
    exact List.Perm.refl _
  next hemp =>
    split at h
    next hall =>
      split at h
      · cases h
      next m' flag hbl =>
        cases h
        refine (balanceLoop_flatten_perm dist depot maxStops cap 100 _ _ _ hbl).trans ?_
        refine (flatten_map_perm _ (fun cl => List.mergeSort_perm cl _) _).trans ?_
        have hkey : ∀ p ∈ stops.enum, (fun q : Nat × RStop => labels q.1) p <
            min numTrucks stops.length := by
          intro p hp
          rw [List.enum_eq_zip_range] at hp
          have hmem : p.1 ∈ List.range stops.length := by
            have := List.of_mem_zip (a := p.1) (b := p.2) (by simpa using hp)
            exact this.1
          have := List.all_eq_true.mp hall p.1 hmem
          exact of_decide_eq_true this
        have hpart := partition_perm (fun q : Nat × RStop => labels q.1) stops.enum
          (min numTrucks stops.length) hkey
        have hmap := hpart.map (fun q : Nat × RStop => q.2)
        rw [List.enum_map_snd] at hmap
        refine List.Perm.trans ?_ hmap
        rw [List.map_flatten, List.map_map]
        exact List.Perm.refl _
    · cases h

/-- Witness for C2 on a concrete two-stop run (labels put each stop in
its own cluster). -/
theorem cluster_stops_preserves_multiset_witness :
    cluster_stops (fun _ _ => 0) (fun i => i) ((0 : ℚ), (0 : ℚ)) 6 7 2000
        [(⟨0, 0, 0, 5⟩ : RStop), ⟨1, 1, 1, 7⟩] =
      .ok [[(⟨0, 0, 0, 5⟩ : RStop)], [⟨1, 1, 1, 7⟩]] ∧
    ([[(⟨0, 0, 0, 5⟩ : RStop)], [⟨1, 1, 1, 7⟩]] : List (List RStop)).flatten.Perm
      [(⟨0, 0, 0, 5⟩ : RStop), ⟨1, 1, 1, 7⟩] := by
  have hov : overloadedIdxs 7 2000 [[(⟨0, 0, 0, 5⟩ : RStop)], [⟨1, 1, 1, 7⟩]] = [] := by
    norm_num [overloadedIdxs, overloadedb, getClusterGallons]
    intro a ha
    interval_cases a <;> norm_num
  have hrun : cluster_stops (fun _ _ => 0) (fun i => i) ((0 : ℚ), (0 : ℚ)) 6 7 2000
      [(⟨0, 0, 0, 5⟩ : RStop), ⟨1, 1, 1, 7⟩] =
      .ok [[(⟨0, 0, 0, 5⟩ : RStop)], [⟨1, 1, 1, 7⟩]] := by
    have hmid : cluster_stops (fun _ _ => 0) (fun i => i) ((0 : ℚ), (0 : ℚ)) 6 7 2000
        [(⟨0, 0, 0, 5⟩ : RStop), ⟨1, 1, 1, 7⟩] =
        (match balanceLoop (fun _ _ => 0) ((0 : ℚ), (0 : ℚ)) 7 2000 100
            [[(⟨0, 0, 0, 5⟩ : RStop)], [⟨1, 1, 1, 7⟩]] with
          | .error e => .error e
          | .ok (m, _) => .ok m) := by
      norm_num [cluster_stops, List.enum, List.enumFrom, List.mergeSort_singleton,
        List.range_succ, Function.comp_def, List.filter_cons, List.filter_nil]
    rw [hmid, balanceLoop_break_eq (fun _ _ => 0) ((0 : ℚ), (0 : ℚ)) 7 2000 100
      [[(⟨0, 0, 0, 5⟩ : RStop)], [⟨1, 1, 1, 7⟩]] hov (by decide)]
  exact ⟨hrun,
    cluster_stops_preserves_multiset (fun _ _ => 0) (fun i => i) ((0 : ℚ), (0 : ℚ))
      6 7 2000 [(⟨0, 0, 0, 5⟩ : RStop), ⟨1, 1, 1, 7⟩]
      [[(⟨0, 0, 0, 5⟩ : RStop)], [⟨1, 1, 1, 7⟩]] hrun⟩

/-- C5 counterexample: the rebalancing loop picks `overloaded[0]` — the
first overloaded cluster in key order — not the most-overloaded one.
Here cluster 0 has 8 stops and cluster 1 has 10 stops (both over the
7-stop cap, equal zero demand), so cluster 1 is strictly more
overloaded, yet cluster 0 is selected. -/
theorem balance_selects_first_not_most_overloaded :
    selectedTruck 7 10000
        [(List.range 8).map (fun i => (⟨i, 0, 0, 0⟩ : RStop)),
          (List.range 10).map (fun i => (⟨100 + i, 0, 0, 0⟩ : RStop))] = some 0 ∧
    overloadedb 7 10000 ((List.range 8).map (fun i => (⟨i, 0, 0, 0⟩ : RStop))) = true ∧
    overloadedb 7 10000
      ((List.range 10).map (fun i => (⟨100 + i, 0, 0, 0⟩ : RStop))) = true ∧
    ((List.range 8).map (fun i => (⟨i, 0, 0, 0⟩ : RStop))).length <
      ((List.range 10).map (fun i => (⟨100 + i, 0, 0, 0⟩ : RStop))).length ∧
    getClusterGallons ((List.range 8).map (fun i => (⟨i, 0, 0, 0⟩ : RStop))) =
      getClusterGallons ((List.range 10).map (fun i => (⟨100 + i, 0, 0, 0⟩ : RStop))) := by
  refine ⟨by decide, by decide, by decide, by decide, ?_⟩
  simp [getClusterGallons, Function.comp_def]

/-- C5 (amended): on each rebalancing iteration the selected cluster is
the FIRST overloaded cluster in key order (every lower-indexed cluster
is within limits); if its total demand exceeds capacity the removed stop
is one of highest demand, otherwise one farthest from the cluster
centroid (first index on ties, per Python `max`). -/
theorem balance_selection_and_removal_rule (dist : Coord → Coord → ℚ) (depot : Coord)
    (maxStops : Nat) (cap : ℚ) (cs : List (List RStop)) (tid : Nat)
    (h : selectedTruck maxStops cap cs = some tid) :
    tid < cs.length ∧
    overloadedb maxStops cap (cs.getD tid []) = true ∧
    (∀ j < tid, overloadedb maxStops cap (cs.getD j []) = false) ∧
    (0 < (cs.getD tid []).length →
      removedIdx dist depot cap (cs.getD tid []) < (cs.getD tid []).length) ∧
    (cap < getClusterGallons (cs.getD tid []) →
      ∀ j < (cs.getD tid []).length,
        ((cs.getD tid []).getD j default).gallons ≤
          ((cs.getD tid []).getD (removedIdx dist depot cap (cs.getD tid []))
            default).gallons) ∧
    (¬cap < getClusterGallons (cs.getD tid []) →
      ∀ j < (cs.getD tid []).length,
        dist (centroid depot (cs.getD tid []))
            (((cs.getD tid []).getD j default).lat,
              ((cs.getD tid []).getD j default).lon) ≤
          dist (centroid depot (cs.getD tid []))
            (((cs.getD tid []).getD (removedIdx dist depot cap (cs.getD tid []))
                default).lat,
              ((cs.getD tid []).getD (removedIdx dist depot cap (cs.getD tid []))
                default).lon)) := by
  rw [selectedTruck, overloadedIdxs] at h
  obtain ⟨h1, h2, h3⟩ := head_filter_range cs.length
    (fun k => overloadedb maxStops cap (cs.getD k [])) tid h
  refine ⟨h1, h2, h3, ?_, ?_, ?_⟩
  · intro hpos
    rw [removedIdx]
    by_cases hco : cap < getClusterGallons (cs.getD tid [])
    · rw [if_pos hco]; exact pyMaxIdx_lt _ _ hpos
    · rw [if_neg hco]; exact pyMaxIdx_lt _ _ hpos
  · intro hco j hj
    rw [removedIdx, if_pos hco]
    exact pyMaxIdx_le (fun i => ((cs.getD tid []).getD i default).gallons) _ j hj
  · intro hco j hj
    rw [removedIdx, if_neg hco]
    exact pyMaxIdx_le
      (fun i => dist (centroid depot (cs.getD tid []))
        (((cs.getD tid []).getD i default).lat, ((cs.getD tid []).getD i default).lon))
      _ j hj

/-- Witness for the amended C5: one cluster over capacity (12 > 10
gallons); the removed stop is the highest-demand one. -/
theorem balance_selection_and_removal_rule_witness :
    (0 : Nat) < ([[(⟨0, 0, 0, 9⟩ : RStop), ⟨1, 0, 0, 3⟩]] : List (List RStop)).length ∧
    ∀ j < ([(⟨0, 0, 0, 9⟩ : RStop), ⟨1, 0, 0, 3⟩] : List RStop).length,
      (([(⟨0, 0, 0, 9⟩ : RStop), ⟨1, 0, 0, 3⟩] : List RStop).getD j default).gallons ≤
        (([(⟨0, 0, 0, 9⟩ : RStop), ⟨1, 0, 0, 3⟩] : List RStop).getD
          (removedIdx (fun _ _ => 0) ((0 : ℚ), (0 : ℚ)) 10
            [(⟨0, 0, 0, 9⟩ : RStop), ⟨1, 0, 0, 3⟩]) default).gallons := by
  have hsel : selectedTruck 7 10 [[(⟨0, 0, 0, 9⟩ : RStop), ⟨1, 0, 0, 3⟩]] = some 0 := by
    rw [selectedTruck, overloadedIdxs]
    norm_num [overloadedb, getClusterGallons]
  have h := balance_selection_and_removal_rule (fun _ _ => 0) ((0 : ℚ), (0 : ℚ)) 7 10
    [[(⟨0, 0, 0, 9⟩ : RStop), ⟨1, 0, 0, 3⟩]] 0 hsel
  refine ⟨by decide, ?_⟩
  have h5 := h.2.2.2.2.1 (by norm_num [getClusterGallons])
  exact h5

/-- C9: `optimize_route` returns a permutation of its input (whenever
the external Directions API, when consulted, returns a genuine waypoint
permutation), and returns the input unchanged for 0 or 1 stops. -/
theorem optimize_route_perm (dist : Coord → Coord → ℚ) (useGoogleMaps hasGoogle : Bool)
    (googleOrder : Option (List Nat)) (depot : Coord) (stops : List RStop)
    (horder : ∀ ord, googleOrder = some ord → ord.Perm (List.range stops.length)) :
    (optimize_route dist useGoogleMaps hasGoogle googleOrder depot stops).Perm stops ∧
    (stops.length ≤ 1 →
      optimize_route dist useGoogleMaps hasGoogle googleOrder depot stops = stops) := by
  constructor
  · rw [optimize_route]
    by_cases hle : stops.length ≤ 1
    · rw [if_pos hle]
    · rw [if_neg hle]
      cases hcase : (if useGoogleMaps && hasGoogle && decide (stops.length ≤ 10) then
          googleOrder else none) with
      | none =>
        exact nearest_neighbor_route_perm dist stops.length stops (le_refl _) depot
      | some ord =>
        have hgo : googleOrder = some ord := by
          by_cases hb : (useGoogleMaps && hasGoogle && decide (stops.length ≤ 10)) = true
          · rwa [if_pos hb] at hcase
          · rw [if_neg hb] at hcase; cases hcase
        have hp := (horder ord hgo).map (fun i => stops.getD i default)
        rwa [map_getD_range stops] at hp
  · intro hle
    rw [optimize_route, if_pos hle]

/-- Witness for C9 with two stops and no external sequencer. -/
theorem optimize_route_perm_witness :
    (optimize_route (fun _ _ => 0) false false none ((0 : ℚ), (0 : ℚ))
        [(⟨0, 0, 0, 0⟩ : RStop), ⟨1, 1, 1, 0⟩]).Perm
      [(⟨0, 0, 0, 0⟩ : RStop), ⟨1, 1, 1, 0⟩] ∧
    (([(⟨0, 0, 0, 0⟩ : RStop), ⟨1, 1, 1, 0⟩] : List RStop).length ≤ 1 →
      optimize_route (fun _ _ => 0) false false none ((0 : ℚ), (0 : ℚ))
          [(⟨0, 0, 0, 0⟩ : RStop), ⟨1, 1, 1, 0⟩] =
        [(⟨0, 0, 0, 0⟩ : RStop), ⟨1, 1, 1, 0⟩]) :=
  optimize_route_perm (fun _ _ => 0) false false none ((0 : ℚ), (0 : ℚ))
    [(⟨0, 0, 0, 0⟩ : RStop), ⟨1, 1, 1, 0⟩] (by intro ord h; cases h)

end DeliveryRouter

namespace Planner

/-- A clock time handed to the planner as an `"HH:MM"` string; we model
the parsed form `(hours, minutes)` directly (`_parse_hhmm` composed
with `_min_of_day` is `minOfDay` below). -/
abbrev HHMM := Nat × Nat

/-- `_min_of_day(_parse_hhmm(day, hhmm))`: minutes since midnight. -/
def minOfDay (t : HHMM) : Int := t.1 * 60 + t.2

/-- The `Stop` dataclass of `app/services/planner.py`. -/
structure PStop where
  address : String
  service_minutes : Int
  notes : List String
  window_start : Option HHMM := none
  window_end : Option HHMM := none
deriving DecidableEq

instance : Inhabited PStop := ⟨⟨"", 0, [], none, none⟩⟩

/-- Python `round()` (half to even), as used by `sec_to_min`. -/
def pyRound (q : ℚ) : Int :=
  if q - ⌊q⌋ < 1 / 2 then ⌊q⌋
  else if 1 / 2 < q - ⌊q⌋ then ⌊q⌋ + 1
  else if ⌊q⌋ % 2 = 0 then ⌊q⌋ else ⌊q⌋ + 1

/-- `sec_to_min` of `_solve_once`: values above `1e8` are already
penalty minutes and are truncated (`int(x)`, equal to the floor since
`x` is positive there); otherwise seconds are rounded to non-negative
whole minutes. -/
def secToMin (x : ℚ) : Int :=
  if 10 ^ 8 < x then ⌊x⌋ else max 0 (pyRound (x / 60))

/-- The travel matrix built by `_solve_once`
(`travel[i][j] = sec_to_min(durations_seconds[i][j])`).  The source
indexes Python lists directly (a too-small matrix would raise
IndexError); we read through `getD`. -/
def travelS (durations : List (List ℚ)) (i j : Nat) : Int :=
  secToMin ((durations.getD i []).getD j 0)

/-- `service = [0] + [max(0, int(s.service_minutes)) for s in stops] + [0]`. -/
def serviceS (stops : List PStop) : List Int :=
  0 :: (stops.map (fun s => max 0 s.service_minutes) ++ [0])

/-- The per-node time windows of `_solve_once`: start depot
`[departure, close]`, each stop `[window_start or open, window_end or
close]`, return depot `[departure, min(24h-1, close+180)]`. -/
def twS (stops : List PStop) (departT openT closeT : HHMM) : List (Int × Int) :=
  (minOfDay departT, minOfDay closeT) ::
    (stops.map (fun s =>
        (minOfDay (s.window_start.getD openT), minOfDay (s.window_end.getD closeT))) ++
      [(minOfDay departT, min (24 * 60 - 1) (minOfDay closeT + 180))])

/-- The transit callback of `_solve_once`:
`travel[frm][to] + service[frm]`. -/
def transitS (stops : List PStop) (durations : List (List ℚ)) (frm tgt : Nat) : Int :=
  travelS durations frm tgt + (serviceS stops).getD frm 0

/-- The walk the routing engine returns for the single vehicle, as
extracted by `_solve_once` (`visit_nodes` / `visit_times`:
`sol.Min(time_dim.CumulVar(index))` along `NextVar`). -/
structure SingleSol where
  nodes : List Nat
  times : List Int
deriving DecidableEq

/-- What the OR-Tools model of `_solve_once` guarantees about any
returned solution: the walk starts at node 0, ends at node
`len(stops)+1`, visits every delivery node exactly once (no
disjunctions: every visit is mandatory), cumulative times grow by at
least the transit on each arc (slack is non-negative), and each node
has its time inside its window. -/
def SingleSolValid (stops : List PStop) (durations : List (List ℚ))
    (departT openT closeT : HHMM) (sol : SingleSol) : Prop :=
  sol.times.length = sol.nodes.length ∧
  (∃ mid : List Nat, sol.nodes = 0 :: mid ++ [stops.length + 1] ∧
    mid.Perm ((List.range stops.length).map (· + 1))) ∧
  (∀ i, i + 1 < sol.nodes.length →
    sol.times.getD i 0 +
        transitS stops durations (sol.nodes.getD i 0) (sol.nodes.getD (i + 1) 0) ≤
      sol.times.getD (i + 1) 0) ∧
  (∀ i, i < sol.nodes.length →
    ((twS stops departT openT closeT).getD (sol.nodes.getD i 0) (0, 0)).1 ≤
        sol.times.getD i 0 ∧
      sol.times.getD i 0 ≤
        ((twS stops departT openT closeT).getD (sol.nodes.getD i 0) (0, 0)).2)

/-- One schedule row of `_solve_once`.  The source formats `eta` as a
wall-clock string; we keep the minutes value, and the 30-minute
display window as a pair. -/
structure Row where
  rtype : String
  address : String
  etaMin : Int
  window : Option (Int × Int) := none
  notes : List String := []
deriving DecidableEq

/-- The result dict of `_solve_once` / `plan_route`. -/
structure PlanResult where
  feasible : Bool
  schedule : List Row := []
  ordered_deliveries : List String := []
  return_eta : Option Int := none
  lunch : Option String := none
deriving DecidableEq

/-- The row built for one visited node (the three branches of the
schedule loop in `_solve_once`). -/
def buildRow (depotAddress : String) (stops : List PStop) (nNodes : Nat)
    (node : Nat) (t : Int) : Row :=
  if node = 0 then ⟨"DEPOT_START", depotAddress, t, none, []⟩
  else if node = nNodes - 1 then ⟨"DEPOT_RETURN", depotAddress, t, none, []⟩
  else
    ⟨"DELIVERY", (stops.getD (node - 1) default).address, t, some (t, t + 30),
      (stops.getD (node - 1) default).notes⟩

/-- `_solve_once`.  The OR-Tools solve itself is abstracted: `sol` is
the engine answer (`none` when `SolveWithParameters` found no
solution).  `useLunch` selects whether the break interval was added to
the model, which only affects which solutions the engine may return,
not the extraction below. -/
def solve_once (depotAddress : String) (stops : List PStop)
    (_durations : List (List ℚ)) (_departT _openT _closeT _lunchStartT _lunchEndT : HHMM)
    (_lunchMinutes : Int) (_useLunch : Bool) (sol : Option SingleSol) : PlanResult :=
  match sol with
  | none => { feasible := false }
  | some s =>
    { feasible := true
      schedule := (s.nodes.zip s.times).map
        (fun p => buildRow depotAddress stops (stops.length + 2) p.1 p.2)
      ordered_deliveries :=
        ((s.nodes.zip s.times).filter
            (fun p => decide (p.1 ≠ 0) && decide (p.1 ≠ stops.length + 1))).map
          (fun p => (stops.getD (p.1 - 1) default).address)
      return_eta :=
        (((s.nodes.zip s.times).map
            (fun p => buildRow depotAddress stops (stops.length + 2) p.1 p.2)).getLast?).map
          (·.etaMin)
      lunch := none }

/-- `plan_route`: try with the lunch break; if infeasible and the break
is skippable, retry without it.  `solWith` / `solWithout` are the
abstract engine answers of the two `_solve_once` calls. -/
def plan_route (depotAddress : String) (stops : List PStop)
    (durations : List (List ℚ)) (departT openT closeT lunchStartT lunchEndT : HHMM)
    (lunchMinutes : Int) (lunchSkippable : Bool)
    (solWith solWithout : Option SingleSol) : PlanResult :=
  let r := solve_once depotAddress stops durations departT openT closeT lunchStartT
    lunchEndT lunchMinutes true solWith
  if r.feasible then
    { r with lunch := some "Scheduled (solver placed a lunch break if possible)" }
  else if lunchSkippable then
    let r2 := solve_once depotAddress stops durations departT openT closeT lunchStartT
      lunchEndT lunchMinutes false solWithout
    if r2.feasible then { r2 with lunch := some "Skipped (needed for feasibility)" }
    else r2
  else { r with lunch := some "No feasible route with required lunch" }

theorem filter_map_zip_fst {α β γ : Type} (φ : α → Bool) (ψ : α → γ) :
    ∀ (l₁ : List α) (l₂ : List β), l₁.length = l₂.length →
      ((l₁.zip l₂).filter (fun p => φ p.1)).map (fun p => ψ p.1) =
        (l₁.filter φ).map ψ := by
  intro l₁
  induction l₁ with
  | nil => intro l₂ _; simp
  | cons a t₁ ih =>
    intro l₂ hl
    cases l₂ with
    | nil => simp at hl
    | cons b t₂ =>
      simp only [List.zip_cons_cons, List.filter_cons]
      by_cases hφ : φ a = true
      · simp only [hφ, if_pos, List.map_cons]
        rw [ih t₂ (by simpa using hl)]
      · simp only [hφ, Bool.false_eq_true, if_false]
        exact ih t₂ (by simpa using hl)

theorem solve_once_deliveries_perm (depotAddress : String) (stops : List PStop)
    (durations : List (List ℚ)) (departT openT closeT lunchStartT lunchEndT : HHMM)
    (lunchMinutes : Int) (useLunch : Bool) (s : SingleSol)
    (hv : SingleSolValid stops durations departT openT closeT s) :
    (solve_once depotAddress stops durations departT openT closeT lunchStartT
        lunchEndT lunchMinutes useLunch (some s)).ordered_deliveries.Perm
      (stops.map (·.address)) := by
  obtain ⟨hlen, ⟨mid, hnodes, hmid⟩, _, _⟩ := hv
  have heq : (solve_once depotAddress stops durations departT openT closeT lunchStartT
      lunchEndT lunchMinutes useLunch (some s)).ordered_deliveries =
      (s.nodes.filter
          (fun v => decide (v ≠ 0) && decide (v ≠ stops.length + 1))).map
        (fun v => (stops.getD (v - 1) default).address) := by
    exact filter_map_zip_fst (fun v => decide (v ≠ 0) && decide (v ≠ stops.length + 1))
      (fun v => (stops.getD (v - 1) default).address) s.nodes s.times hlen.symm
  rw [heq, hnodes]
  have hmem : ∀ v ∈ mid, v ≠ 0 ∧ v ≠ stops.length + 1 := by
    intro v hvmem
    have : v ∈ (List.range stops.length).map (· + 1) := hmid.mem_iff.mp hvmem
    obtain ⟨i, hi, rfl⟩ := List.mem_map.mp this
    exact ⟨Nat.succ_ne_zero i, by
      have := List.mem_range.mp hi
      omega⟩
  have hfilter : (0 :: mid ++ [stops.length + 1]).filter
      (fun v => decide (v ≠ 0) && decide (v ≠ stops.length + 1)) = mid := by
    have h0 : (decide ((0 : Nat) ≠ 0) && decide ((0 : Nat) ≠ stops.length + 1)) =
        false := by simp
    have h1 : (decide (stops.length + 1 ≠ 0) &&
        decide (stops.length + 1 ≠ stops.length + 1)) = false := by simp
    simp only [List.filter_append, List.filter_cons, List.filter_nil, h0, h1,
      Bool.false_eq_true, if_false, List.append_nil]
    exact List.filter_eq_self.mpr (by
      intro v hvmem
      obtain ⟨ha, hb⟩ := hmem v hvmem
      simp [ha, hb])
  rw [hfilter]
  have hgetD := DeliveryRouter.map_getD_range stops
  have hchain : ((List.range stops.length).map (· + 1)).map
      (fun v => (stops.getD (v - 1) default).address) = stops.map (·.address) := by
    rw [List.map_map]
    have hcomp : ((fun v => (stops.getD (v - 1) default).address) ∘ (· + 1)) =
        fun i => (stops.getD i default).address := by
      funext i; simp
    rw [hcomp]
    calc (List.range stops.length).map (fun i => (stops.getD i default).address)
        = ((List.range stops.length).map (fun i => stops.getD i default)).map
            (·.address) := by rw [List.map_map]; rfl
      _ = stops.map (·.address) := by rw [hgetD]
  rw [← hchain]
  exact hmid.map _

/-- C10: the single-vehicle planner never drops stops — for every
feasible result of `_solve_once` (under the OR-Tools model, which makes
every delivery node mandatory), `ordered_deliveries` lists the address
of every input stop exactly once, and the same holds for the result of
`plan_route`. -/
theorem single_planner_no_dropped_stops (depotAddress : String) (stops : List PStop)
    (durations : List (List ℚ)) (departT openT closeT lunchStartT lunchEndT : HHMM)
    (lunchMinutes : Int) (lunchSkippable : Bool)
    (solWith solWithout : Option SingleSol)
    (hW : ∀ s, solWith = some s → SingleSolValid stops durations departT openT closeT s)
    (hWo : ∀ s, solWithout = some s →
      SingleSolValid stops durations departT openT closeT s) :
    (∀ (useLunch : Bool) (s : SingleSol),
      SingleSolValid stops durations departT openT closeT s →
      (solve_once depotAddress stops durations departT openT closeT lunchStartT
          lunchEndT lunchMinutes useLunch (some s)).ordered_deliveries.Perm
        (stops.map (·.address))) ∧
    ((plan_route depotAddress stops durations departT openT closeT lunchStartT
        lunchEndT lunchMinutes lunchSkippable solWith solWithout).feasible = true →
      (plan_route depotAddress stops durations departT openT closeT lunchStartT
          lunchEndT lunchMinutes lunchSkippable solWith
          solWithout).ordered_deliveries.Perm (stops.map (·.address))) := by
  constructor
  · intro useLunch s hv
    exact solve_once_deliveries_perm depotAddress stops durations departT openT closeT
      lunchStartT lunchEndT lunchMinutes useLunch s hv
  · intro hfeas
    cases hsw : solWith with
    | some s =>
      have hv := hW s hsw
      rw [plan_route]
      subst hsw
      exact solve_once_deliveries_perm depotAddress stops durations departT openT
        closeT lunchStartT lunchEndT lunchMinutes true s hv
    | none =>
      subst hsw
      cases hsk : lunchSkippable with
      | false =>
        rw [plan_route] at hfeas
        subst hsk
        simp [solve_once] at hfeas
      | true =>
        subst hsk
        cases hswo : solWithout with
        | some s2 =>
          have hv := hWo s2 hswo
          rw [plan_route]
          subst hswo
          exact solve_once_deliveries_perm depotAddress stops durations departT openT
            closeT lunchStartT lunchEndT lunchMinutes false s2 hv
        | none =>
          subst hswo
          rw [plan_route] at hfeas
          simp [solve_once] at hfeas

/-- Witness for C10: one stop, all-zero 3x3 matrix, the walk 0-1-2. -/
theorem single_planner_no_dropped_stops_witness :
    (plan_route "Depot" [⟨"A", 10, [], none, none⟩] [[0, 0, 0], [0, 0, 0], [0, 0, 0]]
        (8, 0) (8, 0) (17, 0) (12, 0) (13, 0) 30 true
        (some ⟨[0, 1, 2], [480, 490, 500]⟩) none).feasible = true ∧
    ((plan_route "Depot" [⟨"A", 10, [], none, none⟩] [[0, 0, 0], [0, 0, 0], [0, 0, 0]]
        (8, 0) (8, 0) (17, 0) (12, 0) (13, 0) 30 true
        (some ⟨[0, 1, 2], [480, 490, 500]⟩) none).ordered_deliveries.Perm
      (([⟨"A", 10, [], none, none⟩] : List PStop).map (·.address))) := by
  have hvalid : SingleSolValid [⟨"A", 10, [], none, none⟩]
      [[0, 0, 0], [0, 0, 0], [0, 0, 0]] (8, 0) (8, 0) (17, 0)
      ⟨[0, 1, 2], [480, 490, 500]⟩ := by
    refine ⟨rfl, ⟨[1], rfl, by decide⟩, ?_, ?_⟩
    · intro i hi
      have hi2 : i < 2 := by simp at hi; omega
      interval_cases i <;>
        norm_num [transitS, travelS, secToMin, pyRound, serviceS]
    · intro i hi
      have hi3 : i < 3 := by simpa using hi
      interval_cases i <;>
        norm_num [twS, minOfDay]
  have h := single_planner_no_dropped_stops "Depot" [⟨"A", 10, [], none, none⟩]
    [[0, 0, 0], [0, 0, 0], [0, 0, 0]] (8, 0) (8, 0) (17, 0) (12, 0) (13, 0) 30 true
    (some ⟨[0, 1, 2], [480, 490, 500]⟩) none
    (by intro s hs; cases hs; exact hvalid) (by intro s hs; cases hs)
  exact ⟨rfl, h.2 rfl⟩

/-- C6: `plan_route` first attempts the solve with the lunch break; a
feasible first attempt is reported as scheduled; an infeasible first
attempt with a skippable break is retried without the break and a
feasible retry is reported as skipped for feasibility; an infeasible
first attempt with a non-skippable break is reported infeasible with
the required break. -/
theorem plan_route_break_policy (depotAddress : String) (stops : List PStop)
    (durations : List (List ℚ)) (departT openT closeT lunchStartT lunchEndT : HHMM)
    (lunchMinutes : Int) (lunchSkippable : Bool)
    (solWith solWithout : Option SingleSol) :
    (∀ s, solWith = some s →
      plan_route depotAddress stops durations departT openT closeT lunchStartT
          lunchEndT lunchMinutes lunchSkippable solWith solWithout =
        { solve_once depotAddress stops durations departT openT closeT lunchStartT
            lunchEndT lunchMinutes true (some s) with
          lunch := some "Scheduled (solver placed a lunch break if possible)" }) ∧
    (solWith = none → lunchSkippable = true → ∀ s2, solWithout = some s2 →
      plan_route depotAddress stops durations departT openT closeT lunchStartT
          lunchEndT lunchMinutes lunchSkippable solWith solWithout =
        { solve_once depotAddress stops durations departT openT closeT lunchStartT
            lunchEndT lunchMinutes false (some s2) with
          lunch := some "Skipped (needed for feasibility)" }) ∧
    (solWith = none → lunchSkippable = true → solWithout = none →
      plan_route depotAddress stops durations departT openT closeT lunchStartT
          lunchEndT lunchMinutes lunchSkippable solWith solWithout =
        { feasible := false }) ∧
    (solWith = none → lunchSkippable = false →
      plan_route depotAddress stops durations departT openT closeT lunchStartT
          lunchEndT lunchMinutes lunchSkippable solWith solWithout =
        { feasible := false,
          lunch := some "No feasible route with required lunch" }) := by
  refine ⟨?_, ?_, ?_, ?_⟩
  · intro s hs; subst hs; rfl
  · intro h1 h2 s2 hs2; subst h1; subst h2; subst hs2; rfl
  · intro h1 h2 h3; subst h1; subst h2; subst h3; rfl
  · intro h1 h2; subst h1; subst h2; rfl

/-- Witness for C6: a feasible first attempt is labelled scheduled. -/
theorem plan_route_break_policy_witness :
    plan_route "Depot" [] [] (8, 0) (8, 0) (17, 0) (12, 0) (13, 0) 30 true
        (some ⟨[0, 1], [480, 480]⟩) none =
      { solve_once "Depot" [] [] (8, 0) (8, 0) (17, 0) (12, 0) (13, 0) 30 true
          (some ⟨[0, 1], [480, 480]⟩) with
        lunch := some "Scheduled (solver placed a lunch break if possible)" } :=
  (plan_route_break_policy "Depot" [] [] (8, 0) (8, 0) (17, 0) (12, 0) (13, 0) 30 true
    (some ⟨[0, 1], [480, 480]⟩) none).1 ⟨[0, 1], [480, 480]⟩ rfl

end Planner

namespace MultiPlanner

/-- `_min_of_day(_parse_hhmm(day, hhmm))` — the helpers are duplicated
in `app/services/multi_planner.py`; minutes since midnight of an
`(hours, minutes)` clock time. -/
def minOfDay (t : Nat × Nat) : Int := t.1 * 60 + t.2

/-- A stop dict as consumed by `plan_multi_routes`: `address`,
optional `service_minutes`, optional `window_start` / `window_end`
(HH:MM, modelled parsed), `notes`. -/
structure MStop where
  address : String
  service_minutes : Option Int := none
  window_start : Option (Nat × Nat) := none
  window_end : Option (Nat × Nat) := none
  notes : List String := []
deriving DecidableEq

instance : Inhabited MStop := ⟨⟨"", none, none, none, []⟩⟩

/-- `sec_to_min` of `plan_multi_routes`: `None` cells become `10**9`
minutes, values above `1e8` are treated as already-integral penalties
(truncated; they are positive so this is the floor), and ordinary
seconds are rounded to non-negative whole minutes. -/
def secToMinM (x : Option ℚ) : Int :=
  match x with
  | none => 10 ^ 9
  | some v => if 10 ^ 8 < v then ⌊v⌋ else max 0 (Planner.pyRound (v / 60))

/-- `travel[i][j] = sec_to_min(durations_seconds[i][j])`.  The source
indexes the lists directly; we read through `getD` (the matrix size is
validated before this point). -/
def travelM (durations : List (List (Option ℚ))) (i j : Nat) : Int :=
  secToMinM ((durations.getD i []).getD j none)

/-- `service = [0] + [max(0, int(sm or default)) for s in stops]`. -/
def serviceM (stops : List MStop) (defaultService : Int) : List Int :=
  0 :: stops.map (fun s => max 0 (s.service_minutes.getD defaultService))

/-- `num_vehicles = max(1, int(max_drivers))`. -/
def numVehiclesM (maxDrivers : Int) : Nat := max 1 maxDrivers.toNat

/-- The transit callback: `travel[frm][to] + service[frm]`. -/
def transitM (stops : List MStop) (durations : List (List (Option ℚ)))
    (defaultService : Int) (frm tgt : Nat) : Int :=
  travelM durations frm tgt + (serviceM stops defaultService).getD frm 0

/-- The per-node time windows as actually applied to the cumulative
time dimension: depot `[departure, 24h]`; each stop starts at
`max(window_start, departure)` (or `max(open, departure)` when absent)
and ends at its declared/work end extended by a 180-minute buffer,
capped at `24h - 1`. -/
def appliedTwM (stops : List MStop) (departT openT closeT : Nat × Nat) :
    List (Int × Int) :=
  (minOfDay departT, 24 * 60) ::
    stops.map (fun s =>
      (match s.window_start with
        | some w => max (minOfDay w) (minOfDay departT)
        | none => max (minOfDay openT) (minOfDay departT),
       min ((match s.window_end with
        | some w => minOfDay w
        | none => minOfDay closeT) + 180) (24 * 60 - 1)))

/-- The abstract multi-vehicle solution: for each vehicle index the
extracted walk (`route_nodes`, `route_times`). -/
structure MSol where
  routes : List (List Nat × List Int)
deriving DecidableEq

/-- What the OR-Tools model of `plan_multi_routes` guarantees about a
returned solution: one walk per vehicle, each starting and ending at
the depot node 0 with interior nodes among the stop nodes, cumulative
times growing by at least the transit on each arc, and each visited
node time inside the active window `tw`. -/
def MSolValid (stops : List MStop) (durations : List (List (Option ℚ)))
    (defaultService : Int) (tw : List (Int × Int)) (numVehicles : Nat)
    (sol : MSol) : Prop :=
  sol.routes.length = numVehicles ∧
  ∀ r ∈ sol.routes,
    r.2.length = r.1.length ∧
    (∃ body : List Nat, r.1 = 0 :: body ++ [0] ∧
      ∀ v ∈ body, 1 ≤ v ∧ v ≤ stops.length) ∧
    (∀ i, i + 1 < r.1.length →
      r.2.getD i 0 +
          transitM stops durations defaultService (r.1.getD i 0) (r.1.getD (i + 1) 0) ≤
        r.2.getD (i + 1) 0) ∧
    (∀ i, i < r.1.length →
      (tw.getD (r.1.getD i 0) (0, 0)).1 ≤ r.2.getD i 0 ∧
        r.2.getD i 0 ≤ (tw.getD (r.1.getD i 0) (0, 0)).2)

/-- One schedule row of the multi-vehicle extraction (`DEPOT` or
`DELIVERY` rows; `eta` kept in minutes, the 30-minute display window as
a pair). -/
structure MRow where
  rtype : String
  address : String
  etaMin : Int
  window : Option (Int × Int) := none
  notes : List String := []
deriving DecidableEq

/-- One extracted vehicle route (`driver_index`, ordered stop
addresses, maps link, schedule). -/
structure MRoute where
  driver_index : Nat
  stops : List String
  maps_link : String
  schedule : List MRow
deriving DecidableEq

/-- The result dict of `plan_multi_routes`.  The source returns the
route list under both `"drivers"` and `"routes"` keys (same object); we
keep one field. -/
structure MultiResult where
  feasible : Bool
  error : Option String := none
  drivers_used : Nat := 0
  drivers_max : Nat := 0
  routes : List MRoute := []
  lunch : Option String := none
deriving DecidableEq

/-- `_google_maps_link`. -/
def google_maps_link (depot : String) (ordered_stops : List String) : String :=
  if ordered_stops.isEmpty then ""
  else
    "https://www.google.com/maps/dir/?api=1" ++ "&origin=" ++ depot ++
      "&destination=" ++ depot ++ "&waypoints=" ++
      String.intercalate "|" ordered_stops ++ "&travelmode=driving"

/-- The schedule row built per visited node in the extraction loop. -/
def buildMRow (depotAddress : String) (stops : List MStop) (node : Nat) (t : Int) :
    MRow :=
  if node = 0 then ⟨"DEPOT", depotAddress, t, none, []⟩
  else
    ⟨"DELIVERY", (stops.getD (node - 1) default).address, t, some (t, t + 30),
      (stops.getD (node - 1) default).notes⟩

/-- `ordered_stops`: addresses of the non-depot nodes of a walk, in
visiting order. -/
def routeStops (stops : List MStop) (ns : List Nat) : List String :=
  (ns.filter (fun v => decide (v ≠ 0))).map
    (fun v => (stops.getD (v - 1) default).address)

/-- The route-extraction loop of `plan_multi_routes` (lines 320-378):
walks every vehicle, skips vehicles whose walk touches only the depot,
counts the used vehicles, and builds the per-vehicle route record. -/
def extract_routes (depotAddress : String) (stops : List MStop) (sol : MSol) :
    Nat × List MRoute :=
  ((sol.routes.filter (fun r => !(r.1.all (fun v => decide (v = 0))))).length,
   (sol.routes.enum.filter (fun p => !(p.2.1.all (fun v => decide (v = 0))))).map
     (fun p =>
       { driver_index := p.1 + 1
         stops := routeStops stops p.2.1
         maps_link := google_maps_link depotAddress (routeStops stops p.2.1)
         schedule := (p.2.1.zip p.2.2).map (fun q => buildMRow depotAddress stops q.1 q.2) }))

/-- `plan_multi_routes`.  The OR-Tools solves are abstracted:
`solNormal` is the first solution found by the four strategy attempts
with the original windows, `solRelaxed` the solution of the final
attempt after relaxing all time windows; `none` means the respective
attempts failed.  `.error` models an uncaught Python exception: the
DEBUG block at the top of the function reads the local `service` (and
later `work_window_minutes`) before assignment, so every call with a
non-empty stop list raises UnboundLocalError. -/
def plan_multi_routes (depotAddress : String) (stops : List MStop)
    (durations : List (List (Option ℚ))) (_distancesMeters : Option (List (List ℚ)))
    (_departT _openT _closeT : Nat × Nat) (_lunchStartT _lunchEndT : Nat × Nat)
    (_lunchMinutes : Int) (_lunchSkippable : Bool) (_defaultServiceMinutes : Int)
    (maxDrivers : Int) (maxStopsPerDriver : Int)
    (solNormal solRelaxed : Option MSol) : Except String MultiResult :=
  if durations.length = 1 + stops.length ∧ ∀ r ∈ durations, r.length = 1 + stops.length
  then
    if 0 < stops.length then
      .error "UnboundLocalError: local variable service referenced before assignment"
    else
      match solNormal.or solRelaxed with
      | none =>
        .ok { feasible := false
              error := some ("No feasible plan found. Received: " ++
                toString stops.length ++ " stops, " ++
                toString (numVehiclesM maxDrivers) ++ " drivers, max " ++
                toString maxStopsPerDriver ++
                " stops/driver. Even with very relaxed constraints, solver found no solution. Check server console (PowerShell window) for DEBUG messages showing travel times and constraints. The issue may be unrealistic travel times in the distance matrix.") }
      | some sol =>
        if (extract_routes depotAddress stops sol).1 = 0 ∧ 0 < stops.length then
          .ok { feasible := false
                error := some ("Solver found a solution but no routes were extracted. This may be a bug. Debug: " ++
                  toString stops.length ++ " stops, " ++
                  toString (numVehiclesM maxDrivers) ++ " vehicles available.") }
        else
          .ok { feasible := true
                drivers_used := (extract_routes depotAddress stops sol).1
                drivers_max := numVehiclesM maxDrivers
                routes := (extract_routes depotAddress stops sol).2.mergeSort
                  (fun a b => decide (b.stops.length ≤ a.stops.length))
                lunch := some "Not explicitly scheduled in multi-driver mode (kept fast)." }
  else
    .ok { feasible := false
          error := some ("Matrix size mismatch: expected " ++
            toString (1 + stops.length) ++ "x" ++ toString (1 + stops.length) ++
            ", got " ++ toString durations.length ++ "x" ++
            toString (if durations.isEmpty then 0 else (durations.getD 0 []).length)) }

/-- C7: a duration matrix that is not exactly (1+stops) square makes
`plan_multi_routes` return a structured infeasible result with the size
mismatch message, before any routing model is built or any solve is
consulted (the result is the same for every solver outcome). -/
theorem plan_multi_routes_size_mismatch (depotAddress : String) (stops : List MStop)
    (durations : List (List (Option ℚ))) (dm : Option (List (List ℚ)))
    (departT openT closeT lunchStartT lunchEndT : Nat × Nat) (lunchMinutes : Int)
    (lunchSkippable : Bool) (defaultService : Int) (maxDrivers : Int)
    (maxStopsPerDriver : Int)
    (h : ¬(durations.length = 1 + stops.length ∧
      ∀ r ∈ durations, r.length = 1 + stops.length)) :
    ∀ solNormal solRelaxed,
      plan_multi_routes depotAddress stops durations dm departT openT closeT
          lunchStartT lunchEndT lunchMinutes lunchSkippable defaultService maxDrivers
          maxStopsPerDriver solNormal solRelaxed =
        .ok { feasible := false
              error := some ("Matrix size mismatch: expected " ++
                toString (1 + stops.length) ++ "x" ++ toString (1 + stops.length) ++
                ", got " ++ toString durations.length ++ "x" ++
                toString (if durations.isEmpty then 0
                  else (durations.getD 0 []).length)) } := by
  intro solNormal solRelaxed
  rw [plan_multi_routes, if_neg h]

/-- Witness for C7: a 0x0 matrix against one stop. -/
theorem plan_multi_routes_size_mismatch_witness :
    plan_multi_routes "Depot" [⟨"A", none, none, none, []⟩] [] none (8, 0) (8, 0)
        (17, 0) (12, 0) (13, 0) 30 true 15 3 7 none none =
      .ok { feasible := false
            error := some ("Matrix size mismatch: expected " ++
              toString (1 + ([⟨"A", none, none, none, []⟩] : List MStop).length) ++
              "x" ++
              toString (1 + ([⟨"A", none, none, none, []⟩] : List MStop).length) ++
              ", got " ++ toString ([] : List (List (Option ℚ))).length ++ "x" ++
              toString (if ([] : List (List (Option ℚ))).isEmpty then 0
                else (([] : List (List (Option ℚ))).getD 0 []).length)) } :=
  plan_multi_routes_size_mismatch "Depot" [⟨"A", none, none, none, []⟩] [] none (8, 0)
    (8, 0) (17, 0) (12, 0) (13, 0) 30 true 15 3 7
    (by intro hc; exact absurd hc.1 (by decide)) none none

/-- C1 (code-bug evidence): with a non-empty stop list and a correctly
sized matrix, `plan_multi_routes` raises UnboundLocalError — the DEBUG
block reads `service[1]` (and `work_window_minutes`) before those
locals are assigned — instead of returning a result dictionary. -/
theorem plan_multi_routes_crashes_on_nonempty_stops :
    plan_multi_routes "Depot" [⟨"A", none, none, none, []⟩]
        [[some 0, some 0], [some 0, some 0]] none (8, 0) (8, 0) (17, 0) (12, 0)
        (13, 0) 30 true 15 3 7 none none =
      .error "UnboundLocalError: local variable service referenced before assignment" := by
  rfl

/-- C8: an empty stop list with its matching 1x1 matrix yields a
feasible result with zero drivers used and no routes, for any valid
engine solution of the trivial model. -/
theorem plan_multi_routes_empty_feasible (depotAddress : String) (d : Option ℚ)
    (dm : Option (List (List ℚ)))
    (departT openT closeT lunchStartT lunchEndT : Nat × Nat) (lunchMinutes : Int)
    (lunchSkippable : Bool) (defaultService : Int) (maxDrivers : Int)
    (maxStopsPerDriver : Int) (tw : List (Int × Int)) (sol : MSol)
    (solRelaxed : Option MSol)
    (hv : MSolValid [] [[d]] defaultService tw (numVehiclesM maxDrivers) sol) :
    plan_multi_routes depotAddress [] [[d]] dm departT openT closeT lunchStartT
        lunchEndT lunchMinutes lunchSkippable defaultService maxDrivers
        maxStopsPerDriver (some sol) solRelaxed =
      .ok { feasible := true, error := none, drivers_used := 0,
            drivers_max := numVehiclesM maxDrivers, routes := [],
            lunch := some "Not explicitly scheduled in multi-driver mode (kept fast)." } := by
  obtain ⟨hlen, hroutes⟩ := hv
  have hall : ∀ r ∈ sol.routes, (r.1.all (fun v => decide (v = 0))) = true := by
    intro r hr
    obtain ⟨-, ⟨body, hbody, hmem⟩, -, -⟩ := hroutes r hr
    have hbnil : body = [] := by
      cases body with
      | nil => rfl
      | cons v t =>
        have := hmem v (List.mem_cons_self _ _)
        simp at this
        omega
    subst hbnil
    rw [hbody]
    rfl
  have hfilter1 : sol.routes.filter (fun r => !(r.1.all (fun v => decide (v = 0)))) =
      [] :=
    List.filter_eq_nil_iff.mpr (by intro r hr; simp [hall r hr])
  have hfilter2 : sol.routes.enum.filter
      (fun p => !(p.2.1.all (fun v => decide (v = 0)))) = [] := by
    apply List.filter_eq_nil_iff.mpr
    intro p hp
    have hmem2 : p.2 ∈ sol.routes := by
      rw [List.enum_eq_zip_range] at hp
      have := List.of_mem_zip (a := p.1) (b := p.2) (by simpa using hp)
      exact this.2
    simp [hall p.2 hmem2]
  have hex : extract_routes depotAddress [] sol = (0, []) := by
    rw [extract_routes, hfilter1, hfilter2]
    rfl
  rw [plan_multi_routes]
  rw [if_pos (⟨rfl, by intro r hr; simp at hr; subst hr; rfl⟩ :
    ([[d]] : List (List (Option ℚ))).length = 1 + ([] : List MStop).length ∧
      ∀ r ∈ ([[d]] : List (List (Option ℚ))), r.length = 1 + ([] : List MStop).length)]
  rw [if_neg (by simp)]
  have hor : (some sol).or solRelaxed = some sol := rfl
  rw [hor]
  dsimp only
  rw [if_neg (by rw [hex]; simp)]
  rw [hex]
  rw [List.mergeSort_nil]

/-- Witness for C8: two vehicles, both with trivial depot-only walks. -/
theorem plan_multi_routes_empty_feasible_witness :
    plan_multi_routes "Depot" [] [[some 0]] none (8, 0) (8, 0) (17, 0) (12, 0) (13, 0)
        30 true 15 2 7 (some ⟨[([0, 0], [480, 480]), ([0, 0], [480, 480])]⟩) none =
      .ok { feasible := true, error := none, drivers_used := 0,
            drivers_max := numVehiclesM 2, routes := [],
            lunch := some "Not explicitly scheduled in multi-driver mode (kept fast)." } := by
  apply plan_multi_routes_empty_feasible "Depot" (some 0) none (8, 0) (8, 0) (17, 0)
    (12, 0) (13, 0) 30 true 15 2 7 [(480, 1440)]
    ⟨[([0, 0], [480, 480]), ([0, 0], [480, 480])]⟩ none
  refine ⟨rfl, ?_⟩
  intro r hr
  have hr' : r = (([0, 0] : List Nat), ([480, 480] : List Int)) := by
    rcases List.mem_cons.mp hr with h | h
    · exact h
    · rcases List.mem_cons.mp h with h2 | h2
      · exact h2
      · cases h2
  subst hr'
  refine ⟨rfl, ⟨[], rfl, by intro v hv; cases hv⟩, ?_, ?_⟩
  · intro i hi
    have hi1 : i < 1 := by simp at hi; omega
    interval_cases i
    norm_num [transitM, travelM, secToMinM, Planner.pyRound, serviceM, Int.floor_zero]
  · intro i hi
    have hi2 : i < 2 := by simp at hi; omega
    interval_cases i <;> norm_num

end MultiPlanner

theorem getD_nonneg_of_forall (l : List Int) (k : Nat) (h : ∀ x ∈ l, 0 ≤ x) :
    0 ≤ l.getD k 0 := by
  by_cases hk : k < l.length
  · rw [List.getD_eq_getElem?_getD, List.getElem?_eq_getElem hk]
    exact h _ (List.getElem_mem hk)
  · rw [List.getD_eq_getElem?_getD, List.getElem?_eq_none (by omega)]
    exact le_refl 0

namespace Planner

theorem secToMin_nonneg (x : ℚ) : 0 ≤ secToMin x := by
  rw [secToMin]
  by_cases hx : (10 : ℚ) ^ 8 < x
  · rw [if_pos hx]
    exact Int.le_floor.mpr (by push_cast; linarith [hx, (by norm_num : (0 : ℚ) < 10 ^ 8)])
  · rw [if_neg hx]
    exact le_max_left 0 _

theorem serviceS_getD_nonneg (stops : List PStop) (k : Nat) :
    0 ≤ (serviceS stops).getD k 0 := by
  apply getD_nonneg_of_forall
  intro x hx
  rw [serviceS] at hx
  rcases List.mem_cons.mp hx with rfl | hx
  · exact le_refl 0
  · rcases List.mem_append.mp hx with hx | hx
    · obtain ⟨st, -, rfl⟩ := List.mem_map.mp hx
      exact le_max_left 0 _
    · simp at hx
      omega

theorem transitS_nonneg (stops : List PStop) (durations : List (List ℚ))
    (frm tgt : Nat) : 0 ≤ transitS stops durations frm tgt :=
  add_nonneg (secToMin_nonneg _) (serviceS_getD_nonneg stops frm)

theorem buildRow_etaMin (depotAddress : String) (stops : List PStop) (nNodes : Nat)
    (node : Nat) (t : Int) :
    (buildRow depotAddress stops nNodes node t).etaMin = t := by
  rw [buildRow]
  by_cases h0 : node = 0
  · rw [if_pos h0]
  · rw [if_neg h0]
    by_cases h1 : node = nNodes - 1
    · rw [if_pos h1]
    · rw [if_neg h1]

end Planner

namespace MultiPlanner

theorem secToMinM_nonneg (x : Option ℚ) : 0 ≤ secToMinM x := by
  cases x with
  | none => norm_num [secToMinM]
  | some v =>
    have hsv : secToMinM (some v) =
        if 10 ^ 8 < v then ⌊v⌋ else max 0 (Planner.pyRound (v / 60)) := rfl
    rw [hsv]
    by_cases hv : (10 : ℚ) ^ 8 < v
    · rw [if_pos hv]
      exact Int.le_floor.mpr (by push_cast; linarith [hv, (by norm_num : (0 : ℚ) < 10 ^ 8)])
    · rw [if_neg hv]
      exact le_max_left 0 _

theorem serviceM_getD_nonneg (stops : List MStop) (defaultService : Int) (k : Nat) :
    0 ≤ (serviceM stops defaultService).getD k 0 := by
  apply getD_nonneg_of_forall
  intro x hx
  rw [serviceM] at hx
  rcases List.mem_cons.mp hx with rfl | hx
  · exact le_refl 0
  · obtain ⟨st, -, rfl⟩ := List.mem_map.mp hx
    exact le_max_left 0 _

theorem transitM_nonneg (stops : List MStop) (durations : List (List (Option ℚ)))
    (defaultService : Int) (frm tgt : Nat) :
    0 ≤ transitM stops durations defaultService frm tgt :=
  add_nonneg (secToMinM_nonneg _) (serviceM_getD_nonneg stops defaultService frm)

theorem buildMRow_etaMin (depotAddress : String) (stops : List MStop) (node : Nat)
    (t : Int) : (buildMRow depotAddress stops node t).etaMin = t := by
  rw [buildMRow]
  by_cases h0 : node = 0
  · rw [if_pos h0]
  · rw [if_neg h0]

end MultiPlanner

/-- A cumulative-time walk whose steps each add a non-negative transit
is non-decreasing. -/
theorem chain_le_of_step (f : Nat → Nat → Int) (hf : ∀ a b, 0 ≤ f a b)
    (ns : List Nat) (ts : List Int) (hlen : ts.length = ns.length)
    (hstep : ∀ i, i + 1 < ns.length →
      ts.getD i 0 + f (ns.getD i 0) (ns.getD (i + 1) 0) ≤ ts.getD (i + 1) 0) :
    List.Chain' (fun a b : Int => a ≤ b) ts := by
  rw [List.chain'_iff_get]
  intro i hi
  have hi1 : i < ts.length := by omega
  have hi2 : i + 1 < ts.length := by omega
  have hstep' := hstep i (by omega)
  have hf' := hf (ns.getD i 0) (ns.getD (i + 1) 0)
  have e1 : ts.getD i 0 = ts.get ⟨i, by omega⟩ := by
    rw [List.getD_eq_getElem?_getD, List.getElem?_eq_getElem hi1, List.get_eq_getElem]
    rfl
  have e2 : ts.getD (i + 1) 0 = ts.get ⟨i + 1, by omega⟩ := by
    rw [List.getD_eq_getElem?_getD, List.getElem?_eq_getElem hi2, List.get_eq_getElem]
    rfl
  rw [e1, e2] at hstep'
  exact le_trans (le_add_of_nonneg_right hf') hstep'

/-- Shape of a per-vehicle schedule built by mapping a row constructor
over the zipped walk: times are non-decreasing row-to-row, the first
row is built from the first node, the last row from the last node. -/
theorem schedule_shape {RowT : Type} (g : Nat → Int → RowT) (eta : RowT → Int)
    (heta : ∀ n t, eta (g n t) = t) (f : Nat → Nat → Int) (hf : ∀ a b, 0 ≤ f a b)
    (first lastN : Nat) (mid : List Nat) (ns : List Nat) (ts : List Int)
    (hns : ns = (first :: mid) ++ [lastN]) (hlen : ts.length = ns.length)
    (hstep : ∀ i, i + 1 < ns.length →
      ts.getD i 0 + f (ns.getD i 0) (ns.getD (i + 1) 0) ≤ ts.getD (i + 1) 0) :
    List.Chain' (fun a b => eta a ≤ eta b) ((ns.zip ts).map (fun q => g q.1 q.2)) ∧
    (∃ t, ((ns.zip ts).map (fun q => g q.1 q.2)).head? = some (g first t)) ∧
    (∃ t, ((ns.zip ts).map (fun q => g q.1 q.2)).getLast? = some (g lastN t)) := by
  subst hns
  have hchain_ts : List.Chain' (fun a b : Int => a ≤ b) ts :=
    chain_le_of_step f hf _ ts hlen hstep
  have hlen' : ts.length = mid.length + 2 := by simpa using hlen
  cases ts with
  | nil => simp at hlen'
  | cons t0 rest =>
    rcases List.eq_nil_or_concat rest with hr | ⟨L, tl, hr⟩
    · subst hr; simp at hlen'
    · rw [List.concat_eq_append] at hr
      subst hr
      have hLlen : L.length = mid.length := by
        simp at hlen'
        omega
      have hzip : ((first :: mid) ++ [lastN]).zip (t0 :: (L ++ [tl])) =
          ((first, t0) :: mid.zip L) ++ [(lastN, tl)] := by
        show ((first :: mid) ++ [lastN]).zip ((t0 :: L) ++ [tl]) = _
        rw [List.zip_append (by simp [hLlen])]
        rfl
      refine ⟨?_, ⟨t0, ?_⟩, ⟨tl, ?_⟩⟩
      · have hsnd : (((first :: mid) ++ [lastN]).zip (t0 :: (L ++ [tl]))).map Prod.snd =
            t0 :: (L ++ [tl]) := List.map_snd_zip _ _ (le_of_eq hlen)
        rw [← hsnd] at hchain_ts
        have hz := (List.chain'_map Prod.snd).mp hchain_ts
        exact (List.chain'_map _).mpr (hz.imp (fun p q h => by rw [heta, heta]; exact h))
      · rw [hzip]
        simp
      · rw [hzip, List.map_append, List.getLast?_append]
        simp

/-- C4: for feasible schedule-solver outputs — the single-vehicle
`_solve_once` extraction and the multi-vehicle `plan_multi_routes`
route extraction — arrival times within each used vehicle schedule
are non-decreasing along the visiting sequence, and the first and last
schedule entries are the depot (DEPOT_START/DEPOT_RETURN rows in the
single-vehicle planner, DEPOT rows in the multi-vehicle planner). -/
theorem schedule_monotone_depot_endpoints (depotAddress : String)
    (stops : List Planner.PStop) (durations : List (List ℚ))
    (departT openT closeT lunchStartT lunchEndT : Planner.HHMM) (lunchMinutes : Int)
    (useLunch : Bool) (s : Planner.SingleSol) (depotAddressM : String)
    (stopsM : List MultiPlanner.MStop) (durationsM : List (List (Option ℚ)))
    (defaultService : Int) (tw : List (Int × Int)) (numVehicles : Nat)
    (msol : MultiPlanner.MSol) :
    (Planner.SingleSolValid stops durations departT openT closeT s →
      List.Chain' (fun a b : Planner.Row => a.etaMin ≤ b.etaMin)
        (Planner.solve_once depotAddress stops durations departT openT closeT
          lunchStartT lunchEndT lunchMinutes useLunch (some s)).schedule ∧
      (∃ t, (Planner.solve_once depotAddress stops durations departT openT closeT
          lunchStartT lunchEndT lunchMinutes useLunch (some s)).schedule.head? =
        some ⟨"DEPOT_START", depotAddress, t, none, []⟩) ∧
      (∃ t, (Planner.solve_once depotAddress stops durations departT openT closeT
          lunchStartT lunchEndT lunchMinutes useLunch (some s)).schedule.getLast? =
        some ⟨"DEPOT_RETURN", depotAddress, t, none, []⟩)) ∧
    (MultiPlanner.MSolValid stopsM durationsM defaultService tw numVehicles msol →
      ∀ r ∈ (MultiPlanner.extract_routes depotAddressM stopsM msol).2,
        List.Chain' (fun a b : MultiPlanner.MRow => a.etaMin ≤ b.etaMin) r.schedule ∧
        (∃ t, r.schedule.head? = some ⟨"DEPOT", depotAddressM, t, none, []⟩) ∧
        (∃ t, r.schedule.getLast? = some ⟨"DEPOT", depotAddressM, t, none, []⟩)) := by
  constructor
  · intro hv
    obtain ⟨hlen, ⟨mid, hnodes, -⟩, hstep, -⟩ := hv
    have hshape := schedule_shape
      (Planner.buildRow depotAddress stops (stops.length + 2)) (·.etaMin)
      (fun n t => Planner.buildRow_etaMin depotAddress stops (stops.length + 2) n t)
      (Planner.transitS stops durations)
      (fun a b => Planner.transitS_nonneg stops durations a b)
      0 (stops.length + 1) mid s.nodes s.times hnodes hlen hstep
    refine ⟨hshape.1, ?_, ?_⟩
    · obtain ⟨t, ht⟩ := hshape.2.1
      exact ⟨t, ht.trans (by simp [Planner.buildRow])⟩
    · obtain ⟨t, ht⟩ := hshape.2.2
      refine ⟨t, ht.trans ?_⟩
      rw [Planner.buildRow]
      rw [if_neg (by omega), if_pos (by omega)]
  · intro hv r hr
    obtain ⟨-, hroutes⟩ := hv
    obtain ⟨p, hpmem, rfl⟩ := List.mem_map.mp hr
    have hp2 : p.2 ∈ msol.routes := by
      have hpe := (List.mem_filter.mp hpmem).1
      rw [List.enum_eq_zip_range] at hpe
      have := List.of_mem_zip (a := p.1) (b := p.2) (by simpa using hpe)
      exact this.2
    obtain ⟨hlen, ⟨body, hbody, -⟩, hstep, -⟩ := hroutes p.2 hp2
    have hshape := schedule_shape (MultiPlanner.buildMRow depotAddressM stopsM)
      (·.etaMin)
      (fun n t => MultiPlanner.buildMRow_etaMin depotAddressM stopsM n t)
      (MultiPlanner.transitM stopsM durationsM defaultService)
      (fun a b => MultiPlanner.transitM_nonneg stopsM durationsM defaultService a b)
      0 0 body p.2.1 p.2.2 (by simpa using hbody) hlen hstep
    refine ⟨hshape.1, ?_, ?_⟩
    · obtain ⟨t, ht⟩ := hshape.2.1
      exact ⟨t, ht.trans (by simp [MultiPlanner.buildMRow])⟩
    · obtain ⟨t, ht⟩ := hshape.2.2
      exact ⟨t, ht.trans (by simp [MultiPlanner.buildMRow])⟩

/-- Witness for C4: a 3-node single-vehicle walk and a one-vehicle
multi walk, both with concrete non-decreasing times. -/
theorem schedule_monotone_depot_endpoints_witness :
    (List.Chain' (fun a b : Planner.Row => a.etaMin ≤ b.etaMin)
      (Planner.solve_once "Depot" [⟨"A", 10, [], none, none⟩]
        [[0, 0, 0], [0, 0, 0], [0, 0, 0]] (8, 0) (8, 0) (17, 0) (12, 0) (13, 0) 30
        true (some ⟨[0, 1, 2], [480, 490, 500]⟩)).schedule) ∧
    (∀ r ∈ (MultiPlanner.extract_routes "Depot" [⟨"B", none, none, none, []⟩]
        ⟨[([0, 1, 0], [480, 490, 510])]⟩).2,
      List.Chain' (fun a b : MultiPlanner.MRow => a.etaMin ≤ b.etaMin) r.schedule) := by
  have hv1 : Planner.SingleSolValid [⟨"A", 10, [], none, none⟩]
      [[0, 0, 0], [0, 0, 0], [0, 0, 0]] (8, 0) (8, 0) (17, 0)
      ⟨[0, 1, 2], [480, 490, 500]⟩ := by
    refine ⟨rfl, ⟨[1], rfl, by decide⟩, ?_, ?_⟩
    · intro i hi
      have hi2 : i < 2 := by simp at hi; omega
      interval_cases i <;>
        norm_num [Planner.transitS, Planner.travelS, Planner.secToMin,
          Planner.pyRound, Planner.serviceS]
    · intro i hi
      have hi3 : i < 3 := by simpa using hi
      interval_cases i <;>
        norm_num [Planner.twS, Planner.minOfDay]
  have hv2 : MultiPlanner.MSolValid [⟨"B", none, none, none, []⟩]
      [[some 0, some 0], [some 0, some 0]] 15 [(480, 1440), (480, 1440)] 1
      ⟨[([0, 1, 0], [480, 490, 510])]⟩ := by
    refine ⟨rfl, ?_⟩
    intro r hr
    have hr' : r = (([0, 1, 0] : List Nat), ([480, 490, 510] : List Int)) := by
      rcases List.mem_cons.mp hr with h | h
      · exact h
      · cases h
    subst hr'
    refine ⟨rfl, ⟨[1], rfl, by decide⟩, ?_, ?_⟩
    · intro i hi
      have hi2 : i < 2 := by simp at hi; omega
      interval_cases i <;>
        norm_num [MultiPlanner.transitM, MultiPlanner.travelM, MultiPlanner.secToMinM,
          Planner.pyRound, MultiPlanner.serviceM, Int.floor_zero]
    · intro i hi
      have hi3 : i < 3 := by simp at hi; omega
      interval_cases i <;>
        norm_num [List.getD_cons_zero, List.getD_cons_succ]
  have h := schedule_monotone_depot_endpoints "Depot" [⟨"A", 10, [], none, none⟩]
    [[0, 0, 0], [0, 0, 0], [0, 0, 0]] (8, 0) (8, 0) (17, 0) (12, 0) (13, 0) 30 true
    ⟨[0, 1, 2], [480, 490, 500]⟩ "Depot" [⟨"B", none, none, none, []⟩]
    [[some 0, some 0], [some 0, some 0]] 15 [(480, 1440), (480, 1440)] 1
    ⟨[([0, 1, 0], [480, 490, 510])]⟩
  exact ⟨(h.1 hv1).1, fun r hr => ((h.2 hv2) r hr).1⟩

end LoadLogic
